import Mathlib

/-!
Verification of scanmac.py (an OCR-based MAC address scanner) against its
natural-language specification.  The Python source is shallowly embedded:
strings become `List Char`, regular-expression search over the three fixed
patterns becomes an explicit left-to-right scanner, the result ledger file
becomes its list of lines, the scan cache becomes a function from paths to
optional (mtime, size) records, and the file system is passed explicitly.
-/

namespace Scanmac

/-! ## Character classes

Models of the character classes used by the regexes in scanmac.py lines
14-17 and of the Python string predicates the code relies on.  The models
cover the ASCII range, which is where every character the program treats
specially lives (Python uses Unicode-aware versions of the word-character
class and of upper/lower casing; the difference is irrelevant to the
characters the patterns can match, which are all ASCII).
-/

/-- The regex character class [0-9A-Fa-f]. -/
def hexChars : List Char :=
  ['0', '1', '2', '3', '4', '5', '6', '7', '8', '9',
   'A', 'B', 'C', 'D', 'E', 'F', 'a', 'b', 'c', 'd', 'e', 'f']

/-- Membership in [0-9A-Fa-f]. -/
def isHexB (c : Char) : Bool := decide (c ∈ hexChars)

/-- The regex character class [:\-] (octet separators accepted by RE_COLON). -/
def isSepB (c : Char) : Bool := decide (c = ':' ∨ c = '-')

/-- The regex character class [0-9A-F] used by VALID. -/
def upperHexChars : List Char :=
  ['0', '1', '2', '3', '4', '5', '6', '7', '8', '9', 'A', 'B', 'C', 'D', 'E', 'F']

/-- Membership in [0-9A-F]. -/
def isHexUpper (c : Char) : Bool := decide (c ∈ upperHexChars)

/-- The regex word-character class backslash-w (ASCII model: alphanumeric or
underscore), used to decide the backslash-b word boundaries. -/
def isWordChar (c : Char) : Bool := c.isAlphanum || decide (c = '_')

/-- Whitespace removed by Python str.strip (ASCII model). -/
def isPySpace (c : Char) : Bool :=
  decide (c ∈ [' ', '\t', '\n', '\x0d', '\x0b', '\x0c'])

/-! ## fix_ocr_typos (scanmac.py lines 39-43) -/

/-- The character translation table built by str.maketrans in fix_ocr_typos:
O and o to 0; I, l and dotless i to 1; S and s to 5; B to 8; em dash,
en dash and minus sign to hyphen; fullwidth colon to colon. -/
def fixChar (c : Char) : Char :=
  if c = 'O' ∨ c = 'o' then '0'
  else if c = 'I' ∨ c = 'l' ∨ c = 'ı' then '1'
  else if c = 'S' ∨ c = 's' then '5'
  else if c = 'B' then '8'
  else if c = '—' ∨ c = '–' ∨ c = '−' then '-'
  else if c = '：' then ':'
  else c

/-- fix_ocr_typos: apply the translation table to the whole text. -/
def fix_ocr_typos (s : List Char) : List Char := s.map fixChar

/-! ## normalize_mac (scanmac.py lines 45-50) -/

/-- Python str.strip: drop whitespace from both ends. -/
def pyStrip (s : List Char) : List Char :=
  ((s.dropWhile isPySpace).reverse.dropWhile isPySpace).reverse

/-- The colon-join of consecutive pairs, modelling
":".join(s[i:i+2] for i in range(0, 12, 2)); it is only ever applied to
strings of length exactly 12 (normalize_mac guards on the length). -/
def joinPairs : List Char → List Char
  | a :: b :: c :: rest => a :: b :: ':' :: joinPairs (c :: rest)
  | l => l

/-- normalize_mac: strip, uppercase, hyphens to colons, drop dots when
present, and re-split a bare 12-character string into colon groups.
Python str.upper is modelled by Char.toUpper (ASCII; coincides on every
character the three patterns can produce). -/
def normalize_mac (s : List Char) : List Char :=
  let s1 := ((pyStrip s).map Char.toUpper).map fun c => if c = '-' then ':' else c
  let s2 := if s1.contains '.' then s1.filter (fun c => !(c = '.')) else s1
  if !(s2.contains ':') && s2.length == 12 then joinPairs s2 else s2

/-! ## The three search patterns (scanmac.py lines 14-16)

Each pattern has a fixed length (17, 14 and 12 characters), so a match at a
given position is the conjunction of: a word boundary on the left, the
fixed-length pattern read off the next characters, and a word boundary on
the right.  Each pattern starts and ends with a hex digit (a word
character), so the left boundary holds exactly when the previous character
is absent or not a word character, and symmetrically on the right.
-/

/-- Prefix matcher for (?:[0-9A-Fa-f]{2}[:\-]){n}[0-9A-Fa-f]{2}. -/
def colonAux : Nat → List Char → Bool
  | 0, a :: b :: _ => isHexB a && isHexB b
  | n + 1, a :: b :: s :: rest => isHexB a && isHexB b && isSepB s && colonAux n rest
  | _, _ => false

/-- Prefix matcher for the body of RE_COLON (17 characters). -/
def colonPatAt : List Char → Bool := colonAux 5

/-- Prefix matcher for the body of RE_DOT:
four hex, a dot, four hex, a dot, four hex (14 characters). -/
def dotPatAt : List Char → Bool
  | a :: b :: c :: d :: x :: e :: f :: g :: h :: y :: i :: j :: k :: l :: _ =>
      isHexB a && isHexB b && isHexB c && isHexB d && decide (x = '.') &&
      isHexB e && isHexB f && isHexB g && isHexB h && decide (y = '.') &&
      isHexB i && isHexB j && isHexB k && isHexB l
  | _ => false

/-- Prefix matcher for the body of RE_RAW12: [0-9A-Fa-f]{12}. -/
def raw12PatAt (s : List Char) : Bool :=
  decide ((s.take 12).length = 12) && (s.take 12).all isHexB

/-- The right word boundary after a match that ends in a word character:
end of string or a non-word character next. -/
def wordEnd : List Char → Bool
  | [] => true
  | c :: _ => !(isWordChar c)

/-- re.findall for a fixed-length pattern of length k + 1 that starts and
ends with a word character: scan left to right, at each position require the
left boundary (previous character absent or non-word), the pattern, and the
right boundary; on success record the match and resume after it (matches do
not overlap), otherwise advance one character.  The fuel argument bounds the
recursion and is instantiated with the length of the text, which every step
consumes at least one character of. -/
def findallAux (k : Nat) (patAt : List Char → Bool) :
    Nat → Bool → List Char → List (List Char)
  | 0, _, _ => []
  | _ + 1, _, [] => []
  | fuel + 1, prevWord, c :: rest =>
      if !prevWord && patAt (c :: rest) && wordEnd (rest.drop k) then
        (c :: rest.take k) :: findallAux k patAt fuel true (rest.drop k)
      else
        findallAux k patAt fuel (isWordChar c) rest

/-- re.findall over a whole text (scan starts at a left string edge). -/
def findall (k : Nat) (patAt : List Char → Bool) (s : List Char) : List (List Char) :=
  findallAux k patAt s.length false s

/-- RE_COLON.findall. -/
def findColon (s : List Char) : List (List Char) := findall 16 colonPatAt s

/-- RE_DOT.findall. -/
def findDot (s : List Char) : List (List Char) := findall 13 dotPatAt s

/-- RE_RAW12.findall. -/
def findRaw (s : List Char) : List (List Char) := findall 11 raw12PatAt s

/-! ## VALID (scanmac.py line 17) and extract_macs (lines 52-58) -/

/-- Matcher for exactly n + 1 colon-separated uppercase-hex octets,
consuming the whole string. -/
def validAux : Nat → List Char → Bool
  | 0, [a, b] => isHexUpper a && isHexUpper b
  | n + 1, a :: b :: c :: rest =>
      isHexUpper a && isHexUpper b && decide (c = ':') && validAux n rest
  | _, _ => false

/-- VALID.fullmatch: the whole string is (?:[0-9A-F]{2}:){5}[0-9A-F]{2}. -/
def validFullmatch (s : List Char) : Bool := validAux 5 s

/-- extract_macs: repair typos over the whole text, collect the matches of
the three patterns, normalize each, and keep those that fully match VALID.
The Python set of results is modelled as a Finset. -/
def extract_macs (text : List Char) : Finset (List Char) :=
  let t := fix_ocr_typos text
  let found := (findColon t ++ findDot t ++ findRaw t).map normalize_mac
  (found.filter validFullmatch).toFinset

/-! ## Result ledger (scanmac.py lines 93-108)

The ledger file is modelled as its list of lines: `none` when the file is
absent, `some lines` otherwise.  Python string comparison (used by sorted)
is lexicographic on code points.
-/

/-- Lexicographic less-or-equal on code points (Python string order). -/
def strLe : List Char → List Char → Bool
  | [], _ => true
  | _ :: _, [] => false
  | a :: as, b :: bs => if a = b then strLe as bs else decide (a < b)

/-- Python str.strip followed by str.upper, as applied per ledger line. -/
def upperStrip (l : List Char) : List Char := (pyStrip l).map Char.toUpper

/-- load_existing: absent file gives the empty set; otherwise each line is
stripped, uppercased and kept when it fully matches VALID.  The Python set
is modelled as the list of surviving lines (only membership is ever used).
-/
def load_existing (file : Option (List (List Char))) : List (List Char) :=
  match file with
  | none => []
  | some lines => (lines.map upperStrip).filter validFullmatch

/-- save_new: an empty set returns 0 at once; otherwise the sorted new
addresses absent from the existing file are appended (creating the file
when absent) and their number is returned.  sorted over the Python set macs
is modelled by insertion-sorting the deduplicated list. -/
def save_new (macs : List (List Char)) (file : Option (List (List Char))) :
    Nat × Option (List (List Char)) :=
  if macs.isEmpty then (0, file)
  else
    let existed := load_existing file
    let new := (List.insertionSort (fun a b => strLe a b = true) macs.dedup).filter
      fun m => !(existed.contains m)
    if new.isEmpty then (0, file)
    else (new.length, some (file.getD [] ++ new))

/-- A sequence of save_new merges starting from a given ledger file. -/
def mergeAll (batches : List (List (List Char))) (file : Option (List (List Char))) :
    Option (List (List Char)) :=
  batches.foldl (fun f b => (save_new b f).2) file

/-- The ledger invariant under scrutiny in the claims: whenever the file
exists, its lines are pairwise distinct and every line is a valid canonical
address (hence in particular non-blank). -/
def ledgerOk (file : Option (List (List Char))) : Prop :=
  ∀ lines, file = some lines → lines.Nodup ∧ ∀ l ∈ lines, validFullmatch l = true

/-! ## Scan cache (scanmac.py lines 127-145)

The file system is modelled as a function from paths to optional
(mtime, size) stat results, `none` meaning that stat raises.  The cache
dictionary cache["images"] is a function from paths to optional records;
every record the program ever stores is a two-element [mtime, size] list,
which as a non-empty Python list is truthy, so `rec and tuple(rec) == sig`
is modelled as: the record is present and equals the signature. -/

/-- file_sig: the (int(st_mtime), int(st_size)) pair, or (0, 0) when stat
raises. -/
def file_sig (fs : String → Option (Int × Int)) (p : String) : Int × Int :=
  (fs p).getD (0, 0)

/-- filter_unscanned: split the images into those whose cached record
matches the current signature (counted as skipped) and the rest
(returned for scanning, in order). -/
def filter_unscanned (imgs : List String) (cache : String → Option (Int × Int))
    (fs : String → Option (Int × Int)) : List String × Nat :=
  match imgs with
  | [] => ([], 0)
  | s :: rest =>
      let res := filter_unscanned rest cache fs
      match cache s with
      | some r => if r = file_sig fs s then (res.1, res.2 + 1) else (s :: res.1, res.2)
      | none => (s :: res.1, res.2)

/-- One run of the scheduler over a directory (main, lines 215-226), as far
as the cache is concerned: the unscanned images are each OCRed once, and on
each completion the cache record of that image is set to its current
signature.  Returns the number of OCR invocations and the updated cache. -/
def runOnce (imgs : List String) (cache : String → Option (Int × Int))
    (fs : String → Option (Int × Int)) : Nat × (String → Option (Int × Int)) :=
  let toScan := (filter_unscanned imgs cache fs).1
  (toScan.length, fun p => if p ∈ toScan then some (file_sig fs p) else cache p)

/-! ## Candidate images (scanmac.py lines 13 and 90-91) -/

/-- A directory entry: its file name plus the metadata (byte size and pixel
dimensions) that eligibility could in principle consult. -/
structure FileMeta where
  name : List Char
  size : Nat
  width : Nat
  height : Nat
deriving DecidableEq, Repr

/-- IMG_EXT, the fixed extension set. -/
def IMG_EXT : List (List Char) :=
  [".png".toList, ".jpg".toList, ".jpeg".toList, ".webp".toList]

/-- pathlib Path.suffix: the part of the name from the last dot on, when
that dot is neither the first nor the last character; empty otherwise. -/
def pySuffix (name : List Char) : List Char :=
  match name.reverse.findIdx? (fun c => c = '.') with
  | some j =>
      let i := name.length - 1 - j
      if 0 < i ∧ i + 1 < name.length then name.drop i else []
  | none => []

/-- Python str.lower, ASCII model (extensions are ASCII). -/
def lowerList (l : List Char) : List Char := l.map Char.toLower

/-- list_images: the directory entries sorted by name whose lowercased
suffix is in IMG_EXT.  No other property of the file is consulted. -/
def list_images (dir : List FileMeta) : List FileMeta :=
  (List.insertionSort (fun a b => strLe a.name b.name = true) dir).filter
    fun f => IMG_EXT.contains (lowerList (pySuffix f.name))

/-! ## Per-image OCR attempt (scanmac.py lines 71-87) and the collection
loop (lines 218-226)

The external collaborators are abstracted by their outcomes: whether
Image.open succeeds, and for each of the two tesseract invocations either
the recognized text or `none` for a raised error.  A raised OCR error is
not caught inside ocr_one_image and propagates out of the worker; the
coordinator loop catches any exception from a future and moves on. -/

structure ImgJob where
  /-- Does Image.open succeed (line 76)?  Its failure is caught locally. -/
  openOk : Bool
  /-- First OCR invocation (psm 6): recognized text, or none for a raised
  error; decode and preprocessing errors surfacing at this point are also
  modelled as none. -/
  ocr1 : Option (List Char)
  /-- Second OCR invocation (psm 7), only reached when the first yields no
  address. -/
  ocr2 : Option (List Char)

/-- ocr_one_image: an unopenable image gives the empty set; a raised OCR
error escapes as an exception; otherwise the first non-empty extraction
wins. -/
def ocr_one_image (j : ImgJob) : Except Unit (Finset (List Char)) :=
  if !j.openOk then .ok ∅
  else
    match j.ocr1 with
    | none => .error ()
    | some t1 =>
        let macs := extract_macs t1
        if macs = ∅ then
          match j.ocr2 with
          | none => .error ()
          | some t2 => .ok (extract_macs t2)
        else .ok macs

/-- What a job contributes to the aggregated address set: the coordinator
turns a raised exception into no contribution (lines 220-223). -/
def jobContribution (j : ImgJob) : Finset (List Char) :=
  match ocr_one_image j with
  | .ok m => m
  | .error _ => ∅

/-- The coordinator collection loop: every completed future is consumed,
its exception (if any) swallowed, and the done counter always advances. -/
def collectResults (jobs : List ImgJob) : Finset (List Char) × Nat :=
  jobs.foldl (fun acc j => (acc.1 ∪ jobContribution j, acc.2 + 1)) (∅, 0)

/-! ## The whole run with interruption (scanmac.py lines 210-256)

main wraps the collection loop in try / except KeyboardInterrupt / finally;
the finally block prints a newline, persists the cache, merges the
collected addresses into the ledger, releases the wake lock and prints the
summary, in that order, on the interrupt path exactly as on the normal one.
The model takes the images in completion order, the per-image result sets
(failures already collapsed to the empty contribution), and an optional
interruption point: `some k` means KeyboardInterrupt arrives after the
coordinator has consumed k completions. -/

inductive Ev where
  | ocrDone (p : String)
  | persistCache
  | mergeLedger
  | releaseLock
  | printSummary
deriving DecidableEq, Repr

/-- The completions the coordinator consumes before the try block is left:
all of them normally, the first k on interruption. -/
def scanPart (toScan : List String) (interruptAt : Option Nat) : List String :=
  match interruptAt with
  | none => toScan
  | some k => toScan.take k

/-- The state main leaves behind: what save_cache wrote (`none` would mean
it never ran), the ledger after save_new, its return value, whether the
wake lock was released, and the done counter. -/
structure FinalState where
  persistedCache : Option (String → Option (Int × Int))
  ledger : Option (List (List Char))
  addedCount : Nat
  lockReleased : Bool
  done : Nat

/-- main from the start of scanning on: consume completions until done or
interrupted, then run the finally block (save_cache, save_new,
release_wakelock, summary).  Also returns the event trace in program
order. -/
def mainRun (toScan : List String) (results : String → List (List Char))
    (fs : String → Option (Int × Int)) (cache0 : String → Option (Int × Int))
    (ledger0 : Option (List (List Char))) (interruptAt : Option Nat) :
    FinalState × List Ev :=
  let proc := scanPart toScan interruptAt
  let cache1 : String → Option (Int × Int) :=
    fun p => if p ∈ proc then some (file_sig fs p) else cache0 p
  let allMac : List (List Char) := proc.flatMap results
  let saved := save_new allMac ledger0
  (⟨some cache1, saved.2, saved.1, true, proc.length⟩,
    proc.map Ev.ocrDone ++ [Ev.persistCache, Ev.mergeLedger, Ev.releaseLock, Ev.printSummary])

/-! ## The four surface forms of a six-octet hex string and the canonical
address -/

/-- A six-octet hex string with one separator character between octets:
covers the colon-separated and hyphen-separated styles (and any mixture,
as the regex does). -/
def colon6 (d0 d1 d2 d3 d4 d5 d6 d7 d8 d9 d10 d11 e1 e2 e3 e4 e5 : Char) : List Char :=
  [d0, d1, e1, d2, d3, e2, d4, d5, e3, d6, d7, e4, d8, d9, e5, d10, d11]

/-- The dot-grouped 3 x 4 style. -/
def dot12 (d0 d1 d2 d3 d4 d5 d6 d7 d8 d9 d10 d11 : Char) : List Char :=
  [d0, d1, d2, d3, '.', d4, d5, d6, d7, '.', d8, d9, d10, d11]

/-- The ungrouped 12-hex-digit style. -/
def bare12 (d0 d1 d2 d3 d4 d5 d6 d7 d8 d9 d10 d11 : Char) : List Char :=
  [d0, d1, d2, d3, d4, d5, d6, d7, d8, d9, d10, d11]

/-- The canonical uppercase colon-separated form of the same digits. -/
def canonMac (d0 d1 d2 d3 d4 d5 d6 d7 d8 d9 d10 d11 : Char) : List Char :=
  [Char.toUpper d0, Char.toUpper d1, ':', Char.toUpper d2, Char.toUpper d3, ':',
   Char.toUpper d4, Char.toUpper d5, ':', Char.toUpper d6, Char.toUpper d7, ':',
   Char.toUpper d8, Char.toUpper d9, ':', Char.toUpper d10, Char.toUpper d11]

/-! ## Facts about the character classes -/

theorem hexWord {c : Char} (h : isHexB c = true) : isWordChar c = true := by
  have h2 : c ∈ hexChars := of_decide_eq_true h
  fin_cases h2 <;> decide

theorem hexNotSpace {c : Char} (h : isHexB c = true) : isPySpace c = false := by
  have h2 : c ∈ hexChars := of_decide_eq_true h
  fin_cases h2 <;> decide

theorem hexNotSep {c : Char} (h : isHexB c = true) : isSepB c = false := by
  have h2 : c ∈ hexChars := of_decide_eq_true h
  fin_cases h2 <;> decide

theorem hexNeDot {c : Char} (h : isHexB c = true) : (c = '.') = False := by
  have h2 : c ∈ hexChars := of_decide_eq_true h
  fin_cases h2 <;> decide

theorem hexUpperHex {c : Char} (h : isHexB c = true) : isHexUpper (Char.toUpper c) = true := by
  have h2 : c ∈ hexChars := of_decide_eq_true h
  fin_cases h2 <;> decide

theorem hexUpperNeDot {c : Char} (h : isHexB c = true) : (Char.toUpper c = '.') = False := by
  have h2 : c ∈ hexChars := of_decide_eq_true h
  fin_cases h2 <;> decide

theorem hexUpperNeColon {c : Char} (h : isHexB c = true) : (Char.toUpper c = ':') = False := by
  have h2 : c ∈ hexChars := of_decide_eq_true h
  fin_cases h2 <;> decide

theorem hexUpperNeDash {c : Char} (h : isHexB c = true) : (Char.toUpper c = '-') = False := by
  have h2 : c ∈ hexChars := of_decide_eq_true h
  fin_cases h2 <;> decide

theorem hexUpperNeDot' {c : Char} (h : isHexB c = true) : ('.' = Char.toUpper c) = False := by
  have h2 : c ∈ hexChars := of_decide_eq_true h
  fin_cases h2 <;> decide

theorem hexUpperNeColon' {c : Char} (h : isHexB c = true) : (':' = Char.toUpper c) = False := by
  have h2 : c ∈ hexChars := of_decide_eq_true h
  fin_cases h2 <;> decide

theorem hexUpperNeDash' {c : Char} (h : isHexB c = true) : ('-' = Char.toUpper c) = False := by
  have h2 : c ∈ hexChars := of_decide_eq_true h
  fin_cases h2 <;> decide

theorem hexNeDot' {c : Char} (h : isHexB c = true) : ('.' = c) = False := by
  have h2 : c ∈ hexChars := of_decide_eq_true h
  fin_cases h2 <;> decide

theorem hexFix {c : Char} (h : isHexB c = true) (hB : c ≠ 'B') : fixChar c = c := by
  have h2 : c ∈ hexChars := of_decide_eq_true h
  fin_cases h2 <;> first | (exact absurd rfl hB) | decide

theorem sepWord {c : Char} (h : isSepB c = true) : isWordChar c = false := by
  rcases of_decide_eq_true h with rfl | rfl <;> decide

theorem sepNotHex {c : Char} (h : isSepB c = true) : isHexB c = false := by
  rcases of_decide_eq_true h with rfl | rfl <;> decide

theorem sepNotSpace {c : Char} (h : isSepB c = true) : isPySpace c = false := by
  rcases of_decide_eq_true h with rfl | rfl <;> decide

theorem sepNeDot {c : Char} (h : isSepB c = true) : (c = '.') = False := by
  rcases of_decide_eq_true h with rfl | rfl <;> decide

theorem sepFix {c : Char} (h : isSepB c = true) : fixChar c = c := by
  rcases of_decide_eq_true h with rfl | rfl <;> decide

theorem sepDashMap {c : Char} (h : isSepB c = true) :
    (if Char.toUpper c = '-' then ':' else Char.toUpper c) = ':' := by
  rcases of_decide_eq_true h with rfl | rfl <;> decide

theorem upperHexFacts {c : Char} (h : isHexUpper c = true) :
    Char.toUpper c = c ∧ isPySpace c = false := by
  have h2 : c ∈ upperHexChars := of_decide_eq_true h
  fin_cases h2 <;> decide

/-! ## extract_macs on each surface form -/

theorem extract_macs_colon6 {d0 d1 d2 d3 d4 d5 d6 d7 d8 d9 d10 d11 e1 e2 e3 e4 e5 : Char}
    (hd : isHexB d0 = true ∧ isHexB d1 = true ∧ isHexB d2 = true ∧ isHexB d3 = true ∧
      isHexB d4 = true ∧ isHexB d5 = true ∧ isHexB d6 = true ∧ isHexB d7 = true ∧
      isHexB d8 = true ∧ isHexB d9 = true ∧ isHexB d10 = true ∧ isHexB d11 = true)
    (hB : d0 ≠ 'B' ∧ d1 ≠ 'B' ∧ d2 ≠ 'B' ∧ d3 ≠ 'B' ∧ d4 ≠ 'B' ∧ d5 ≠ 'B' ∧
      d6 ≠ 'B' ∧ d7 ≠ 'B' ∧ d8 ≠ 'B' ∧ d9 ≠ 'B' ∧ d10 ≠ 'B' ∧ d11 ≠ 'B')
    (he : isSepB e1 = true ∧ isSepB e2 = true ∧ isSepB e3 = true ∧ isSepB e4 = true ∧
      isSepB e5 = true) :
    extract_macs (colon6 d0 d1 d2 d3 d4 d5 d6 d7 d8 d9 d10 d11 e1 e2 e3 e4 e5) =
      {canonMac d0 d1 d2 d3 d4 d5 d6 d7 d8 d9 d10 d11} := by
  obtain ⟨h0, h1, h2, h3, h4, h5, h6, h7, h8, h9, h10, h11⟩ := hd
  obtain ⟨hB0, hB1, hB2, hB3, hB4, hB5, hB6, hB7, hB8, hB9, hB10, hB11⟩ := hB
  obtain ⟨he1, he2, he3, he4, he5⟩ := he
  have hfix : fix_ocr_typos (colon6 d0 d1 d2 d3 d4 d5 d6 d7 d8 d9 d10 d11 e1 e2 e3 e4 e5) =
      colon6 d0 d1 d2 d3 d4 d5 d6 d7 d8 d9 d10 d11 e1 e2 e3 e4 e5 := by
    simp [fix_ocr_typos, colon6,
      hexFix h0 hB0, hexFix h1 hB1, hexFix h2 hB2, hexFix h3 hB3, hexFix h4 hB4,
      hexFix h5 hB5, hexFix h6 hB6, hexFix h7 hB7, hexFix h8 hB8, hexFix h9 hB9,
      hexFix h10 hB10, hexFix h11 hB11, sepFix he1, sepFix he2, sepFix he3, sepFix he4,
      sepFix he5]
  have hc : findColon (colon6 d0 d1 d2 d3 d4 d5 d6 d7 d8 d9 d10 d11 e1 e2 e3 e4 e5) =
      [colon6 d0 d1 d2 d3 d4 d5 d6 d7 d8 d9 d10 d11 e1 e2 e3 e4 e5] := by
    simp [findColon, findall, findallAux, colon6, colonPatAt, colonAux, wordEnd,
      h0, h1, h2, h3, h4, h5, h6, h7, h8, h9, h10, h11, he1, he2, he3, he4, he5]
  have hdot : findDot (colon6 d0 d1 d2 d3 d4 d5 d6 d7 d8 d9 d10 d11 e1 e2 e3 e4 e5) = [] := by
    simp [findDot, findall, findallAux, colon6, dotPatAt, wordEnd,
      hexWord h0, hexWord h1, hexWord h2, hexWord h3, hexWord h4, hexWord h5,
      hexWord h6, hexWord h7, hexWord h8, hexWord h9, hexWord h10, hexWord h11,
      sepWord he1, sepWord he2, sepWord he3, sepWord he4, sepWord he5,
      sepNotHex he1, sepNotHex he2, sepNotHex he3, sepNotHex he4, sepNotHex he5,
      hexNeDot h0, hexNeDot h1, hexNeDot h2, hexNeDot h3, hexNeDot h4, hexNeDot h5,
      hexNeDot h6, hexNeDot h7, hexNeDot h8, hexNeDot h9, hexNeDot h10, hexNeDot h11,
      sepNeDot he1, sepNeDot he2, sepNeDot he3, sepNeDot he4, sepNeDot he5]
  have hraw : findRaw (colon6 d0 d1 d2 d3 d4 d5 d6 d7 d8 d9 d10 d11 e1 e2 e3 e4 e5) = [] := by
    simp [findRaw, findall, findallAux, colon6, raw12PatAt, wordEnd,
      h0, h1, h2, h3, h4, h5, h6, h7, h8, h9, h10, h11,
      hexWord h0, hexWord h1, hexWord h2, hexWord h3, hexWord h4, hexWord h5,
      hexWord h6, hexWord h7, hexWord h8, hexWord h9, hexWord h10, hexWord h11,
      sepWord he1, sepWord he2, sepWord he3, sepWord he4, sepWord he5,
      sepNotHex he1, sepNotHex he2, sepNotHex he3, sepNotHex he4, sepNotHex he5]
  have hnorm : normalize_mac (colon6 d0 d1 d2 d3 d4 d5 d6 d7 d8 d9 d10 d11 e1 e2 e3 e4 e5) =
      canonMac d0 d1 d2 d3 d4 d5 d6 d7 d8 d9 d10 d11 := by
    simp [normalize_mac, colon6, canonMac, pyStrip, List.dropWhile,
      hexNotSpace h0, hexNotSpace h11,
      hexUpperNeDash h0, hexUpperNeDash h1, hexUpperNeDash h2, hexUpperNeDash h3,
      hexUpperNeDash h4, hexUpperNeDash h5, hexUpperNeDash h6, hexUpperNeDash h7,
      hexUpperNeDash h8, hexUpperNeDash h9, hexUpperNeDash h10, hexUpperNeDash h11,
      sepDashMap he1, sepDashMap he2, sepDashMap he3, sepDashMap he4, sepDashMap he5,
      hexUpperNeDot h0, hexUpperNeDot h1, hexUpperNeDot h2, hexUpperNeDot h3,
      hexUpperNeDot h4, hexUpperNeDot h5, hexUpperNeDot h6, hexUpperNeDot h7,
      hexUpperNeDot h8, hexUpperNeDot h9, hexUpperNeDot h10, hexUpperNeDot h11,
      hexUpperNeDot' h0, hexUpperNeDot' h1, hexUpperNeDot' h2, hexUpperNeDot' h3,
      hexUpperNeDot' h4, hexUpperNeDot' h5, hexUpperNeDot' h6, hexUpperNeDot' h7,
      hexUpperNeDot' h8, hexUpperNeDot' h9, hexUpperNeDot' h10, hexUpperNeDot' h11]
  have hvalid : validFullmatch (canonMac d0 d1 d2 d3 d4 d5 d6 d7 d8 d9 d10 d11) = true := by
    simp [validFullmatch, validAux, canonMac,
      hexUpperHex h0, hexUpperHex h1, hexUpperHex h2, hexUpperHex h3, hexUpperHex h4,
      hexUpperHex h5, hexUpperHex h6, hexUpperHex h7, hexUpperHex h8, hexUpperHex h9,
      hexUpperHex h10, hexUpperHex h11]
  rw [extract_macs]
  simp only [hfix, hc, hdot, hraw]
  simp [hnorm, hvalid]

theorem extract_macs_dot12 {d0 d1 d2 d3 d4 d5 d6 d7 d8 d9 d10 d11 : Char}
    (hd : isHexB d0 = true ∧ isHexB d1 = true ∧ isHexB d2 = true ∧ isHexB d3 = true ∧
      isHexB d4 = true ∧ isHexB d5 = true ∧ isHexB d6 = true ∧ isHexB d7 = true ∧
      isHexB d8 = true ∧ isHexB d9 = true ∧ isHexB d10 = true ∧ isHexB d11 = true)
    (hB : d0 ≠ 'B' ∧ d1 ≠ 'B' ∧ d2 ≠ 'B' ∧ d3 ≠ 'B' ∧ d4 ≠ 'B' ∧ d5 ≠ 'B' ∧
      d6 ≠ 'B' ∧ d7 ≠ 'B' ∧ d8 ≠ 'B' ∧ d9 ≠ 'B' ∧ d10 ≠ 'B' ∧ d11 ≠ 'B') :
    extract_macs (dot12 d0 d1 d2 d3 d4 d5 d6 d7 d8 d9 d10 d11) =
      {canonMac d0 d1 d2 d3 d4 d5 d6 d7 d8 d9 d10 d11} := by
  obtain ⟨h0, h1, h2, h3, h4, h5, h6, h7, h8, h9, h10, h11⟩ := hd
  obtain ⟨hB0, hB1, hB2, hB3, hB4, hB5, hB6, hB7, hB8, hB9, hB10, hB11⟩ := hB
  have hfix : fix_ocr_typos (dot12 d0 d1 d2 d3 d4 d5 d6 d7 d8 d9 d10 d11) =
      dot12 d0 d1 d2 d3 d4 d5 d6 d7 d8 d9 d10 d11 := by
    simp [fix_ocr_typos, dot12, show fixChar '.' = '.' from rfl,
      hexFix h0 hB0, hexFix h1 hB1, hexFix h2 hB2, hexFix h3 hB3, hexFix h4 hB4,
      hexFix h5 hB5, hexFix h6 hB6, hexFix h7 hB7, hexFix h8 hB8, hexFix h9 hB9,
      hexFix h10 hB10, hexFix h11 hB11]
  have hdotf : findDot (dot12 d0 d1 d2 d3 d4 d5 d6 d7 d8 d9 d10 d11) =
      [dot12 d0 d1 d2 d3 d4 d5 d6 d7 d8 d9 d10 d11] := by
    simp [findDot, findall, findallAux, dot12, dotPatAt, wordEnd,
      h0, h1, h2, h3, h4, h5, h6, h7, h8, h9, h10, h11]
  have hc : findColon (dot12 d0 d1 d2 d3 d4 d5 d6 d7 d8 d9 d10 d11) = [] := by
    simp [findColon, findall, findallAux, dot12, colonPatAt, colonAux, wordEnd,
      h0, h1, h2, h3, h4, h5, h6, h7, h8, h9, h10, h11,
      hexNotSep h0, hexNotSep h1, hexNotSep h2, hexNotSep h3, hexNotSep h4, hexNotSep h5,
      hexNotSep h6, hexNotSep h7, hexNotSep h8, hexNotSep h9, hexNotSep h10, hexNotSep h11,
      hexWord h0, hexWord h1, hexWord h2, hexWord h3, hexWord h4, hexWord h5,
      hexWord h6, hexWord h7, hexWord h8, hexWord h9, hexWord h10, hexWord h11]
  have hraw : findRaw (dot12 d0 d1 d2 d3 d4 d5 d6 d7 d8 d9 d10 d11) = [] := by
    simp [findRaw, findall, findallAux, dot12, raw12PatAt, wordEnd,
      h0, h1, h2, h3, h4, h5, h6, h7, h8, h9, h10, h11,
      hexWord h0, hexWord h1, hexWord h2, hexWord h3, hexWord h4, hexWord h5,
      hexWord h6, hexWord h7, hexWord h8, hexWord h9, hexWord h10, hexWord h11]
  have hnorm : normalize_mac (dot12 d0 d1 d2 d3 d4 d5 d6 d7 d8 d9 d10 d11) =
      canonMac d0 d1 d2 d3 d4 d5 d6 d7 d8 d9 d10 d11 := by
    simp [normalize_mac, dot12, canonMac, pyStrip, List.dropWhile, joinPairs,
      hexNotSpace h0, hexNotSpace h11,
      hexUpperNeDash h0, hexUpperNeDash h1, hexUpperNeDash h2, hexUpperNeDash h3,
      hexUpperNeDash h4, hexUpperNeDash h5, hexUpperNeDash h6, hexUpperNeDash h7,
      hexUpperNeDash h8, hexUpperNeDash h9, hexUpperNeDash h10, hexUpperNeDash h11,
      hexUpperNeDot h0, hexUpperNeDot h1, hexUpperNeDot h2, hexUpperNeDot h3,
      hexUpperNeDot h4, hexUpperNeDot h5, hexUpperNeDot h6, hexUpperNeDot h7,
      hexUpperNeDot h8, hexUpperNeDot h9, hexUpperNeDot h10, hexUpperNeDot h11,
      hexUpperNeColon h0, hexUpperNeColon h1, hexUpperNeColon h2, hexUpperNeColon h3,
      hexUpperNeColon h4, hexUpperNeColon h5, hexUpperNeColon h6, hexUpperNeColon h7,
      hexUpperNeColon h8, hexUpperNeColon h9, hexUpperNeColon h10, hexUpperNeColon h11,
      hexUpperNeColon' h0, hexUpperNeColon' h1, hexUpperNeColon' h2, hexUpperNeColon' h3,
      hexUpperNeColon' h4, hexUpperNeColon' h5, hexUpperNeColon' h6, hexUpperNeColon' h7,
      hexUpperNeColon' h8, hexUpperNeColon' h9, hexUpperNeColon' h10, hexUpperNeColon' h11,
      hexUpperNeDot' h0, hexUpperNeDot' h1, hexUpperNeDot' h2, hexUpperNeDot' h3,
      hexUpperNeDot' h4, hexUpperNeDot' h5, hexUpperNeDot' h6, hexUpperNeDot' h7,
      hexUpperNeDot' h8, hexUpperNeDot' h9, hexUpperNeDot' h10, hexUpperNeDot' h11,
      hexUpperNeDash' h0, hexUpperNeDash' h1, hexUpperNeDash' h2, hexUpperNeDash' h3,
      hexUpperNeDash' h4, hexUpperNeDash' h5, hexUpperNeDash' h6, hexUpperNeDash' h7,
      hexUpperNeDash' h8, hexUpperNeDash' h9, hexUpperNeDash' h10, hexUpperNeDash' h11]
  have hvalid : validFullmatch (canonMac d0 d1 d2 d3 d4 d5 d6 d7 d8 d9 d10 d11) = true := by
    simp [validFullmatch, validAux, canonMac,
      hexUpperHex h0, hexUpperHex h1, hexUpperHex h2, hexUpperHex h3, hexUpperHex h4,
      hexUpperHex h5, hexUpperHex h6, hexUpperHex h7, hexUpperHex h8, hexUpperHex h9,
      hexUpperHex h10, hexUpperHex h11]
  rw [extract_macs]
  simp only [hfix, hc, hdotf, hraw]
  simp [hnorm, hvalid]

theorem extract_macs_bare12 {d0 d1 d2 d3 d4 d5 d6 d7 d8 d9 d10 d11 : Char}
    (hd : isHexB d0 = true ∧ isHexB d1 = true ∧ isHexB d2 = true ∧ isHexB d3 = true ∧
      isHexB d4 = true ∧ isHexB d5 = true ∧ isHexB d6 = true ∧ isHexB d7 = true ∧
      isHexB d8 = true ∧ isHexB d9 = true ∧ isHexB d10 = true ∧ isHexB d11 = true)
    (hB : d0 ≠ 'B' ∧ d1 ≠ 'B' ∧ d2 ≠ 'B' ∧ d3 ≠ 'B' ∧ d4 ≠ 'B' ∧ d5 ≠ 'B' ∧
      d6 ≠ 'B' ∧ d7 ≠ 'B' ∧ d8 ≠ 'B' ∧ d9 ≠ 'B' ∧ d10 ≠ 'B' ∧ d11 ≠ 'B') :
    extract_macs (bare12 d0 d1 d2 d3 d4 d5 d6 d7 d8 d9 d10 d11) =
      {canonMac d0 d1 d2 d3 d4 d5 d6 d7 d8 d9 d10 d11} := by
  obtain ⟨h0, h1, h2, h3, h4, h5, h6, h7, h8, h9, h10, h11⟩ := hd
  obtain ⟨hB0, hB1, hB2, hB3, hB4, hB5, hB6, hB7, hB8, hB9, hB10, hB11⟩ := hB
  have hfix : fix_ocr_typos (bare12 d0 d1 d2 d3 d4 d5 d6 d7 d8 d9 d10 d11) =
      bare12 d0 d1 d2 d3 d4 d5 d6 d7 d8 d9 d10 d11 := by
    simp [fix_ocr_typos, bare12,
      hexFix h0 hB0, hexFix h1 hB1, hexFix h2 hB2, hexFix h3 hB3, hexFix h4 hB4,
      hexFix h5 hB5, hexFix h6 hB6, hexFix h7 hB7, hexFix h8 hB8, hexFix h9 hB9,
      hexFix h10 hB10, hexFix h11 hB11]
  have hrawf : findRaw (bare12 d0 d1 d2 d3 d4 d5 d6 d7 d8 d9 d10 d11) =
      [bare12 d0 d1 d2 d3 d4 d5 d6 d7 d8 d9 d10 d11] := by
    simp [findRaw, findall, findallAux, bare12, raw12PatAt, wordEnd,
      h0, h1, h2, h3, h4, h5, h6, h7, h8, h9, h10, h11]
  have hc : findColon (bare12 d0 d1 d2 d3 d4 d5 d6 d7 d8 d9 d10 d11) = [] := by
    simp [findColon, findall, findallAux, bare12, colonPatAt, colonAux, wordEnd,
      h0, h1, h2, h3, h4, h5, h6, h7, h8, h9, h10, h11,
      hexNotSep h0, hexNotSep h1, hexNotSep h2, hexNotSep h3, hexNotSep h4, hexNotSep h5,
      hexNotSep h6, hexNotSep h7, hexNotSep h8, hexNotSep h9, hexNotSep h10, hexNotSep h11,
      hexWord h0, hexWord h1, hexWord h2, hexWord h3, hexWord h4, hexWord h5,
      hexWord h6, hexWord h7, hexWord h8, hexWord h9, hexWord h10, hexWord h11]
  have hdot : findDot (bare12 d0 d1 d2 d3 d4 d5 d6 d7 d8 d9 d10 d11) = [] := by
    simp [findDot, findall, findallAux, bare12, dotPatAt, wordEnd,
      hexNeDot h0, hexNeDot h1, hexNeDot h2, hexNeDot h3, hexNeDot h4, hexNeDot h5,
      hexNeDot h6, hexNeDot h7, hexNeDot h8, hexNeDot h9, hexNeDot h10, hexNeDot h11,
      hexWord h0, hexWord h1, hexWord h2, hexWord h3, hexWord h4, hexWord h5,
      hexWord h6, hexWord h7, hexWord h8, hexWord h9, hexWord h10, hexWord h11]
  have hnorm : normalize_mac (bare12 d0 d1 d2 d3 d4 d5 d6 d7 d8 d9 d10 d11) =
      canonMac d0 d1 d2 d3 d4 d5 d6 d7 d8 d9 d10 d11 := by
    simp [normalize_mac, bare12, canonMac, pyStrip, List.dropWhile, joinPairs,
      hexNotSpace h0, hexNotSpace h11,
      hexUpperNeDash h0, hexUpperNeDash h1, hexUpperNeDash h2, hexUpperNeDash h3,
      hexUpperNeDash h4, hexUpperNeDash h5, hexUpperNeDash h6, hexUpperNeDash h7,
      hexUpperNeDash h8, hexUpperNeDash h9, hexUpperNeDash h10, hexUpperNeDash h11,
      hexUpperNeDot h0, hexUpperNeDot h1, hexUpperNeDot h2, hexUpperNeDot h3,
      hexUpperNeDot h4, hexUpperNeDot h5, hexUpperNeDot h6, hexUpperNeDot h7,
      hexUpperNeDot h8, hexUpperNeDot h9, hexUpperNeDot h10, hexUpperNeDot h11,
      hexUpperNeColon h0, hexUpperNeColon h1, hexUpperNeColon h2, hexUpperNeColon h3,
      hexUpperNeColon h4, hexUpperNeColon h5, hexUpperNeColon h6, hexUpperNeColon h7,
      hexUpperNeColon h8, hexUpperNeColon h9, hexUpperNeColon h10, hexUpperNeColon h11,
      hexUpperNeColon' h0, hexUpperNeColon' h1, hexUpperNeColon' h2, hexUpperNeColon' h3,
      hexUpperNeColon' h4, hexUpperNeColon' h5, hexUpperNeColon' h6, hexUpperNeColon' h7,
      hexUpperNeColon' h8, hexUpperNeColon' h9, hexUpperNeColon' h10, hexUpperNeColon' h11,
      hexUpperNeDot' h0, hexUpperNeDot' h1, hexUpperNeDot' h2, hexUpperNeDot' h3,
      hexUpperNeDot' h4, hexUpperNeDot' h5, hexUpperNeDot' h6, hexUpperNeDot' h7,
      hexUpperNeDot' h8, hexUpperNeDot' h9, hexUpperNeDot' h10, hexUpperNeDot' h11,
      hexUpperNeDash' h0, hexUpperNeDash' h1, hexUpperNeDash' h2, hexUpperNeDash' h3,
      hexUpperNeDash' h4, hexUpperNeDash' h5, hexUpperNeDash' h6, hexUpperNeDash' h7,
      hexUpperNeDash' h8, hexUpperNeDash' h9, hexUpperNeDash' h10, hexUpperNeDash' h11]
  have hvalid : validFullmatch (canonMac d0 d1 d2 d3 d4 d5 d6 d7 d8 d9 d10 d11) = true := by
    simp [validFullmatch, validAux, canonMac,
      hexUpperHex h0, hexUpperHex h1, hexUpperHex h2, hexUpperHex h3, hexUpperHex h4,
      hexUpperHex h5, hexUpperHex h6, hexUpperHex h7, hexUpperHex h8, hexUpperHex h9,
      hexUpperHex h10, hexUpperHex h11]
  rw [extract_macs]
  simp only [hfix, hc, hdot, hrawf]
  simp [hnorm, hvalid]

/-! ## Claims C1 and C2: the Address Matcher -/

/-- C1, counterexample: the claim says the input "AA-BB-CC-DD-EE-FF" yields
exactly the address "AA:BB:CC:DD:EE:FF"; in fact the typo-repair pass
rewrites every uppercase B to 8 before matching, so extract_macs returns
exactly the singleton "AA:88:CC:DD:EE:FF", which is a different string. -/
theorem claim_C1_counterexample :
    extract_macs ("AA-BB-CC-DD-EE-FF".toList) = {"AA:88:CC:DD:EE:FF".toList} ∧
    "AA:88:CC:DD:EE:FF".toList ≠ "AA:BB:CC:DD:EE:FF".toList := ⟨by decide, by decide⟩

/-- C1, amended: for every six-octet hex string none of whose digits is the
uppercase letter B (the one hex character the typo-repair pass rewrites),
whatever its separator style (colon or hyphen separated in any mixture,
dot-grouped 3 x 4, or ungrouped 12 hex digits), extract_macs accepts it and
normalizes it to the same canonical uppercase colon-separated form; the
particular input "AA-BB-CC-DD-EE-FF" instead yields exactly
"AA:88:CC:DD:EE:FF" because of the B to 8 repair. -/
theorem claim_C1 (d0 d1 d2 d3 d4 d5 d6 d7 d8 d9 d10 d11 e1 e2 e3 e4 e5 : Char)
    (hd : isHexB d0 = true ∧ isHexB d1 = true ∧ isHexB d2 = true ∧ isHexB d3 = true ∧
      isHexB d4 = true ∧ isHexB d5 = true ∧ isHexB d6 = true ∧ isHexB d7 = true ∧
      isHexB d8 = true ∧ isHexB d9 = true ∧ isHexB d10 = true ∧ isHexB d11 = true)
    (hB : d0 ≠ 'B' ∧ d1 ≠ 'B' ∧ d2 ≠ 'B' ∧ d3 ≠ 'B' ∧ d4 ≠ 'B' ∧ d5 ≠ 'B' ∧
      d6 ≠ 'B' ∧ d7 ≠ 'B' ∧ d8 ≠ 'B' ∧ d9 ≠ 'B' ∧ d10 ≠ 'B' ∧ d11 ≠ 'B')
    (he : isSepB e1 = true ∧ isSepB e2 = true ∧ isSepB e3 = true ∧ isSepB e4 = true ∧
      isSepB e5 = true) :
    extract_macs (colon6 d0 d1 d2 d3 d4 d5 d6 d7 d8 d9 d10 d11 e1 e2 e3 e4 e5) =
      {canonMac d0 d1 d2 d3 d4 d5 d6 d7 d8 d9 d10 d11} ∧
    extract_macs (dot12 d0 d1 d2 d3 d4 d5 d6 d7 d8 d9 d10 d11) =
      {canonMac d0 d1 d2 d3 d4 d5 d6 d7 d8 d9 d10 d11} ∧
    extract_macs (bare12 d0 d1 d2 d3 d4 d5 d6 d7 d8 d9 d10 d11) =
      {canonMac d0 d1 d2 d3 d4 d5 d6 d7 d8 d9 d10 d11} ∧
    extract_macs ("AA-BB-CC-DD-EE-FF".toList) = {"AA:88:CC:DD:EE:FF".toList} :=
  ⟨extract_macs_colon6 hd hB he, extract_macs_dot12 hd hB, extract_macs_bare12 hd hB, by decide⟩

/-- Witness for C1 at the digits 0123456789af with mixed separators. -/
theorem claim_C1_witness :
    extract_macs (colon6 '0' '1' '2' '3' '4' '5' '6' '7' '8' '9' 'a' 'f' ':' '-' ':' '-' ':') =
      {canonMac '0' '1' '2' '3' '4' '5' '6' '7' '8' '9' 'a' 'f'} ∧
    extract_macs (dot12 '0' '1' '2' '3' '4' '5' '6' '7' '8' '9' 'a' 'f') =
      {canonMac '0' '1' '2' '3' '4' '5' '6' '7' '8' '9' 'a' 'f'} ∧
    extract_macs (bare12 '0' '1' '2' '3' '4' '5' '6' '7' '8' '9' 'a' 'f') =
      {canonMac '0' '1' '2' '3' '4' '5' '6' '7' '8' '9' 'a' 'f'} ∧
    extract_macs ("AA-BB-CC-DD-EE-FF".toList) = {"AA:88:CC:DD:EE:FF".toList} :=
  claim_C1 '0' '1' '2' '3' '4' '5' '6' '7' '8' '9' 'a' 'f' ':' '-' ':' '-' ':'
    (by decide) (by decide) (by decide)

/-- C2, amended: every address extract_macs returns fully matches six
uppercase two-hex-digit octets joined by colons (the VALID pattern), and no
address comes from a bare run of 10, 11, 13 or 14 hex digits, nor from a
5-group string; a 7-group string, however, does yield its first six groups
(see the counterexample), so the claim holds for octet counts below six and
for digit runs, but not for 7 groups. -/
theorem claim_C2 :
    (∀ t m, m ∈ extract_macs t → validFullmatch m = true) ∧
    extract_macs ("0123456789".toList) = ∅ ∧
    extract_macs ("0123456789A".toList) = ∅ ∧
    extract_macs ("0123456789ACD".toList) = ∅ ∧
    extract_macs ("0123456789ACDE".toList) = ∅ ∧
    extract_macs ("01:23:45:67:89".toList) = ∅ := by
  refine ⟨?_, by decide, by decide, by decide, by decide, by decide⟩
  intro t m hm
  simp only [extract_macs, List.mem_toFinset, List.mem_filter] at hm
  exact hm.2

/-- C2, counterexample: the claim says no string derived from a run of 7
groups is ever returned, but on the 7-group input 01:23:45:67:89:AC:DE the
matcher returns its first six groups (the colon is not a word character, so
the word-boundary anchor does not reject the partial match). -/
theorem claim_C2_counterexample :
    extract_macs ("01:23:45:67:89:AC:DE".toList) = {"01:23:45:67:89:AC".toList} ∧
    extract_macs ("01:23:45:67:89:AC:DE".toList) ≠ ∅ := ⟨by decide, by decide⟩

/-- Witness for C2: the address returned from the 7-group input fully
matches VALID. -/
theorem claim_C2_witness :
    validFullmatch ("01:23:45:67:89:AC".toList) = true :=
  claim_C2.1 ("01:23:45:67:89:AC:DE".toList) ("01:23:45:67:89:AC".toList) (by decide)

/-! ## Claims C3 and C9: the scan cache -/

/-- Helper: when every image has a cache record equal to its current
signature, the filter skips them all. -/
theorem filter_unscanned_all_cached (imgs : List String)
    (cache fs : String → Option (Int × Int))
    (h : ∀ p ∈ imgs, cache p = some (file_sig fs p)) :
    filter_unscanned imgs cache fs = ([], imgs.length) := by
  induction imgs with
  | nil => rfl
  | cons s rest ih =>
      have hs := h s (by simp)
      have hr : filter_unscanned rest cache fs = ([], rest.length) :=
        ih fun p hp => h p (by simp [hp])
      simp [filter_unscanned, hs, hr]

/-- Helper: an image not routed to the unscanned set has a cache record
equal to its current signature. -/
theorem cached_of_not_unscanned (imgs : List String)
    (cache fs : String → Option (Int × Int)) (p : String) (hp : p ∈ imgs)
    (hnot : p ∉ (filter_unscanned imgs cache fs).1) :
    cache p = some (file_sig fs p) := by
  induction imgs with
  | nil => simp at hp
  | cons s rest ih =>
      rcases List.mem_cons.mp hp with rfl | hmem
      · by_cases hc : cache p = some (file_sig fs p)
        · exact hc
        · exfalso
          apply hnot
          rcases hrec : cache p with _ | r
          · simp [filter_unscanned, hrec]
          · have : ¬ r = file_sig fs p := fun he => hc (by rw [hrec, he])
            simp [filter_unscanned, hrec, this]
      · by_cases hc : p ∈ (filter_unscanned rest cache fs).1
        · exfalso
          apply hnot
          rcases hrec : cache s with _ | r
          · simp [filter_unscanned, hrec, hc]
          · by_cases hsig : r = file_sig fs s <;> simp [filter_unscanned, hrec, hsig, hc]
        · exact ih hmem hc

/-- C3: for a directory whose file signatures are unchanged since a
completed cached run, the second run skips every image at the cache filter
(the whole list is skipped and the unscanned set is empty) and performs
zero OCR invocations. -/
theorem claim_C3 (imgs : List String) (cache0 fs : String → Option (Int × Int)) :
    (runOnce imgs (runOnce imgs cache0 fs).2 fs).1 = 0 ∧
    filter_unscanned imgs (runOnce imgs cache0 fs).2 fs = ([], imgs.length) := by
  have hall : ∀ p ∈ imgs, (runOnce imgs cache0 fs).2 p = some (file_sig fs p) := by
    intro p hp
    by_cases hu : p ∈ (filter_unscanned imgs cache0 fs).1
    · simp [runOnce, hu]
    · simp [runOnce, hu]
      exact cached_of_not_unscanned imgs cache0 fs p hp hu
  have h2 := filter_unscanned_all_cached imgs (runOnce imgs cache0 fs).2 fs hall
  refine ⟨?_, h2⟩
  have h3 : (filter_unscanned imgs (runOnce imgs cache0 fs).2 fs).1 = [] := by rw [h2]
  show (filter_unscanned imgs (runOnce imgs cache0 fs).2 fs).1.length = 0
  rw [h3]
  rfl

/-- Witness for C3 on a one-image directory with an initially empty cache. -/
theorem claim_C3_witness :
    (runOnce ["a"] (runOnce ["a"] (fun _ => none)
      (fun _ => some ((1 : Int), (2 : Int)))).2 (fun _ => some ((1 : Int), (2 : Int)))).1 = 0 ∧
    filter_unscanned ["a"] (runOnce ["a"] (fun _ => none)
      (fun _ => some ((1 : Int), (2 : Int)))).2 (fun _ => some ((1 : Int), (2 : Int))) =
      ([], 1) :=
  claim_C3 ["a"] (fun _ => none) (fun _ => some ((1 : Int), (2 : Int)))

/-- Helper: an image routed to the unscanned set has no cache record equal
to its current signature. -/
theorem unscanned_no_record (imgs : List String) (cache fs : String → Option (Int × Int))
    (p : String) (hp : p ∈ (filter_unscanned imgs cache fs).1) :
    ¬ cache p = some (file_sig fs p) := by
  induction imgs with
  | nil => simp [filter_unscanned] at hp
  | cons s rest ih =>
      intro hc
      rcases hrec : cache s with _ | r
      · simp [filter_unscanned, hrec] at hp
        rcases hp with rfl | hp
        · rw [hrec] at hc; exact Option.noConfusion hc
        · exact ih hp hc
      · by_cases hsig : r = file_sig fs s
        · simp [filter_unscanned, hrec, hsig] at hp
          exact ih hp hc
        · simp [filter_unscanned, hrec, hsig] at hp
          rcases hp with rfl | hp
          · rw [hrec] at hc
            exact hsig (Option.some.inj hc)
          · exact ih hp hc

/-- C9: file_sig is total, returning the sentinel (0, 0) when stat raises,
so the cache filter never fails; consequently an image whose stat raises
while the cache holds the record [0, 0] for it is skipped (it is never
routed to the unscanned set). -/
theorem claim_C9 :
    (∀ fs : String → Option (Int × Int), ∀ p, fs p = none → file_sig fs p = (0, 0)) ∧
    (∀ (imgs : List String) (cache fs : String → Option (Int × Int)) (p : String),
      fs p = none → cache p = some ((0 : Int), (0 : Int)) →
      p ∉ (filter_unscanned imgs cache fs).1) := by
  constructor
  · intro fs p h
    simp [file_sig, h]
  · intro imgs cache fs p hfs hc hmem
    have hsig : file_sig fs p = ((0 : Int), (0 : Int)) := by simp [file_sig, hfs]
    exact unscanned_no_record imgs cache fs p hmem (by rw [hc, hsig])

/-- Witness for C9 at a one-image directory whose stat always raises. -/
theorem claim_C9_witness :
    file_sig (fun _ => none) "a" = ((0 : Int), (0 : Int)) ∧
    "a" ∉ (filter_unscanned ["a"] (fun _ => some ((0 : Int), (0 : Int))) (fun _ => none)).1 :=
  ⟨claim_C9.1 (fun _ => none) "a" rfl,
   claim_C9.2 ["a"] (fun _ => some ((0 : Int), (0 : Int))) (fun _ => none) "a" rfl rfl⟩

/-! ## Claim C4: the ledger invariant, and helper lemmas about valid lines -/

theorem dropWhile_eq_self_of (p : Char → Bool) (s : List Char)
    (h : ∀ c ∈ s, p c = false) : s.dropWhile p = s := by
  cases s with
  | nil => rfl
  | cons a t => simp [List.dropWhile_cons, h a (by simp)]

theorem pyStrip_eq_self {s : List Char} (h : ∀ c ∈ s, isPySpace c = false) :
    pyStrip s = s := by
  rw [pyStrip, dropWhile_eq_self_of _ _ h, dropWhile_eq_self_of, List.reverse_reverse]
  intro c hc
  exact h c (by simpa using hc)

/-- Every character of a string accepted by the octet matcher is an
uppercase hex digit or a colon. -/
theorem validAux_chars : ∀ (n : Nat) (l : List Char), validAux n l = true →
    ∀ c ∈ l, isHexUpper c = true ∨ c = ':' := by
  intro n
  induction n with
  | zero =>
      intro l h c hc
      match l, h with
      | [a, b], h =>
          simp only [validAux, Bool.and_eq_true] at h
          rcases List.mem_cons.mp hc with rfl | hc1
          · exact Or.inl h.1
          rcases List.mem_cons.mp hc1 with rfl | hc2
          · exact Or.inl h.2
          · simp at hc2
  | succ n ih =>
      intro l h c hc
      match l, h with
      | a :: b :: x :: rest, h =>
          simp only [validAux, Bool.and_eq_true, decide_eq_true_eq] at h
          rcases List.mem_cons.mp hc with rfl | hc1
          · exact Or.inl h.1.1.1
          rcases List.mem_cons.mp hc1 with rfl | hc2
          · exact Or.inl h.1.1.2
          rcases List.mem_cons.mp hc2 with rfl | hc3
          · exact Or.inr h.1.2
          · exact ih rest h.2 c hc3

theorem valid_ne_nil {l : List Char} (h : validFullmatch l = true) : l ≠ [] := by
  intro he
  subst he
  simp [validFullmatch, validAux] at h

/-- A valid address line is unchanged by the strip-and-uppercase pass that
load_existing applies to every line. -/
theorem valid_upperStrip_id {l : List Char} (h : validFullmatch l = true) :
    upperStrip l = l := by
  have hc := validAux_chars 5 l h
  have hns : ∀ c ∈ l, isPySpace c = false := by
    intro c hcl
    rcases hc c hcl with hx | rfl
    · exact (upperHexFacts hx).2
    · decide
  have hup : ∀ c ∈ l, Char.toUpper c = c := by
    intro c hcl
    rcases hc c hcl with hx | rfl
    · exact (upperHexFacts hx).1
    · decide
  rw [upperStrip, pyStrip_eq_self hns]
  calc l.map Char.toUpper = l.map id := List.map_congr_left hup
  _ = l := List.map_id l

/-- On a file whose lines are all valid, load_existing returns exactly the
lines. -/
theorem load_existing_of_valid (lines : List (List Char))
    (h : ∀ l ∈ lines, validFullmatch l = true) :
    load_existing (some lines) = lines := by
  rw [load_existing]
  have hmap : lines.map upperStrip = lines := by
    calc lines.map upperStrip = lines.map id :=
      List.map_congr_left fun l hl => valid_upperStrip_id (h l hl)
    _ = lines := List.map_id lines
  rw [hmap]
  exact List.filter_eq_self.mpr h

/-- save_new of a set of valid addresses preserves the ledger invariant. -/
theorem save_new_preserves (macs : List (List Char)) (file : Option (List (List Char)))
    (hm : ∀ m ∈ macs, validFullmatch m = true) (hf : ledgerOk file) :
    ledgerOk (save_new macs file).2 := by
  rw [save_new]
  split
  · exact hf
  · set existed := load_existing file with hex
    set new := (List.insertionSort (fun a b => strLe a b = true) macs.dedup).filter
      (fun m => !(existed.contains m)) with hnew
    have hnewvalid : ∀ m ∈ new, validFullmatch m = true := by
      intro m hmem
      have := List.mem_of_mem_filter hmem
      have := (List.perm_insertionSort (fun a b => strLe a b = true) macs.dedup).mem_iff.mp this
      exact hm m (List.mem_dedup.mp this)
    have hnewnodup : new.Nodup := by
      apply List.Nodup.filter
      exact ((List.perm_insertionSort (fun a b => strLe a b = true) macs.dedup).nodup_iff).mpr
        (List.nodup_dedup macs)
    have hnewnotex : ∀ m ∈ new, m ∉ existed := by
      intro m hmem
      have := List.of_mem_filter hmem
      simpa using this
    dsimp only
    split
    · exact hf
    · intro lines hlines
      injection hlines with hlines
      subst hlines
      cases hcf : file with
      | none =>
          simp only [hcf, Option.getD_none, List.nil_append]
          exact ⟨hnewnodup, hnewvalid⟩
      | some lines0 =>
          obtain ⟨hnd0, hv0⟩ := hf lines0 hcf
          have hexist : existed = lines0 := by
            rw [hex, hcf, load_existing_of_valid lines0 hv0]
          simp only [hcf, Option.getD_some]
          constructor
          · rw [List.nodup_append]
            refine ⟨hnd0, hnewnodup, ?_⟩
            intro a ha hna
            exact hnewnotex a hna (hexist ▸ ha)
          · intro l hl
            rcases List.mem_append.mp hl with hl0 | hln
            · exact hv0 l hl0
            · exact hnewvalid l hln

/-- Folding save_new over any sequence of valid batches preserves the
ledger invariant. -/
theorem mergeAll_preserves : ∀ (batches : List (List (List Char)))
    (file : Option (List (List Char))),
    (∀ b ∈ batches, ∀ m ∈ b, validFullmatch m = true) → ledgerOk file →
    ledgerOk (mergeAll batches file) := by
  intro batches
  induction batches with
  | nil => intro file _ hf; exact hf
  | cons b rest ih =>
      intro file hb hf
      rw [mergeAll, List.foldl_cons]
      exact ih (save_new b file).2 (fun b2 hb2 => hb b2 (by simp [hb2]))
        (save_new_preserves b file (hb b (by simp)) hf)

/-- C4, amended: after any sequence of save_new merges of sets of valid
addresses starting from an absent ledger file, if the file exists then it
contains one address per line with no duplicates, every line a valid
canonical address and hence no blank lines; each appended batch is written
sorted, but the file as a whole need not be sorted across merges (see the
counterexample). -/
theorem claim_C4 (batches : List (List (List Char)))
    (hb : ∀ b ∈ batches, ∀ m ∈ b, validFullmatch m = true) :
    ∀ lines, mergeAll batches none = some lines →
      lines.Nodup ∧ ∀ l ∈ lines, validFullmatch l = true ∧ l ≠ [] := by
  intro lines hlines
  obtain ⟨hnd, hv⟩ := mergeAll_preserves batches none hb (by intro l hl; cases hl) lines hlines
  exact ⟨hnd, fun l hl => ⟨hv l hl, valid_ne_nil (hv l hl)⟩⟩

/-- C4, counterexample: the claim says the ledger file is sorted after any
sequence of merges, but merging the address CC... and then the smaller
address AA... leaves the file in the order CC..., AA..., which is not
sorted (save_new appends and never reorders earlier lines). -/
theorem claim_C4_counterexample :
    mergeAll [["CC:00:00:00:00:01".toList], ["AA:00:00:00:00:01".toList]] none =
      some ["CC:00:00:00:00:01".toList, "AA:00:00:00:00:01".toList] ∧
    ¬ List.Pairwise (fun a b : List Char => strLe a b = true)
      ["CC:00:00:00:00:01".toList, "AA:00:00:00:00:01".toList] := ⟨by decide, by decide⟩

/-- Witness for C4 at a single one-address merge. -/
theorem claim_C4_witness :
    (["AA:00:00:00:00:01".toList] : List (List Char)).Nodup ∧
    (∀ l ∈ (["AA:00:00:00:00:01".toList] : List (List Char)),
      validFullmatch l = true ∧ l ≠ []) :=
  claim_C4 [["AA:00:00:00:00:01".toList]] (by decide) ["AA:00:00:00:00:01".toList] (by decide)

/-! ## Claim C5: finalization under interruption -/

/-- C5: a run interrupted after k of the completions has been collected
leaves exactly the final state and trace of a normal run over those k
images: the scan cache is persisted (save_cache is called with the cache
holding the k updates), the collected addresses are merged into the ledger
through save_new, the wake lock is released, and the trace ends with the
same four finalization events as on normal completion. -/
theorem claim_C5 (toScan : List String) (results : String → List (List Char))
    (fs cache0 : String → Option (Int × Int)) (ledger0 : Option (List (List Char)))
    (k : Nat) (hk : k ≤ toScan.length) :
    mainRun toScan results fs cache0 ledger0 (some k) =
      mainRun (toScan.take k) results fs cache0 ledger0 none ∧
    (mainRun toScan results fs cache0 ledger0 (some k)).1.persistedCache ≠ none ∧
    (mainRun toScan results fs cache0 ledger0 (some k)).1.lockReleased = true ∧
    (mainRun toScan results fs cache0 ledger0 (some k)).1.ledger =
      (save_new ((toScan.take k).flatMap results) ledger0).2 ∧
    (mainRun toScan results fs cache0 ledger0 (some k)).1.done = k ∧
    (mainRun toScan results fs cache0 ledger0 (some k)).2 =
      (toScan.take k).map Ev.ocrDone ++
        [Ev.persistCache, Ev.mergeLedger, Ev.releaseLock, Ev.printSummary] := by
  refine ⟨?_, ?_, rfl, rfl, ?_, rfl⟩
  · rfl
  · simp [mainRun, scanPart]
  · show (scanPart toScan (some k)).length = k
    simp [scanPart, List.length_take]
    omega

/-- Witness for C5 on a two-image run interrupted after one completion. -/
theorem claim_C5_witness :
    mainRun ["a", "b"] (fun _ => []) (fun _ => none) (fun _ => none) none (some 1) =
      mainRun ["a"] (fun _ => []) (fun _ => none) (fun _ => none) none none ∧
    (mainRun ["a", "b"] (fun _ => []) (fun _ => none) (fun _ => none) none
      (some 1)).1.lockReleased = true := by
  have h := claim_C5 ["a", "b"] (fun _ => []) (fun _ => none) (fun _ => none) none 1
    (by decide)
  exact ⟨by rw [h.1]; rfl, h.2.2.1⟩

/-! ## Claim C6: candidate image eligibility -/

/-- C6, amended: a file is an eligible candidate image exactly when it is
in the directory and its lowercased suffix is in the fixed raster extension
set; neither the byte size nor the pixel dimensions are consulted. -/
theorem claim_C6 : ∀ (dir : List FileMeta) (f : FileMeta),
    f ∈ list_images dir ↔
      f ∈ dir ∧ IMG_EXT.contains (lowerList (pySuffix f.name)) = true := by
  intro dir f
  rw [list_images, List.mem_filter,
    (List.perm_insertionSort (fun a b => strLe a.name b.name = true) dir).mem_iff]

/-- C6, counterexample: the claim says eligibility requires the byte size
to exceed a minimum threshold and the pixel dimensions to exceed a minimum
width and height, but a .png file of size 0 with dimensions 0 x 0 is
eligible (list_images filters by extension alone). -/
theorem claim_C6_counterexample :
    (⟨"z.png".toList, 0, 0, 0⟩ : FileMeta) ∈ list_images [⟨"z.png".toList, 0, 0, 0⟩] ∧
    (⟨"z.png".toList, 0, 0, 0⟩ : FileMeta).size = 0 ∧
    (⟨"z.png".toList, 0, 0, 0⟩ : FileMeta).width = 0 ∧
    (⟨"z.png".toList, 0, 0, 0⟩ : FileMeta).height = 0 := by
  refine ⟨?_, rfl, rfl, rfl⟩
  decide

/-- Witness for C6 on a one-file directory. -/
theorem claim_C6_witness :
    (⟨"a.jpeg".toList, 5, 9, 9⟩ : FileMeta) ∈ list_images [⟨"a.jpeg".toList, 5, 9, 9⟩] :=
  (claim_C6 [⟨"a.jpeg".toList, 5, 9, 9⟩] ⟨"a.jpeg".toList, 5, 9, 9⟩).mpr
    ⟨by decide, by decide⟩

/-! ## Claim C7: per-image failures are local -/

/-- C7: the coordinator loop consumes every job (the done counter reaches
the number of images, so no per-image failure terminates the run), and an
image whose open fails, whose first OCR invocation raises, or whose two OCR
passes yield no address, contributes the empty set of addresses. -/
theorem claim_C7 :
    (∀ jobs : List ImgJob, (collectResults jobs).2 = jobs.length) ∧
    (∀ j : ImgJob, j.openOk = false → jobContribution j = ∅) ∧
    (∀ j : ImgJob, j.ocr1 = none → jobContribution j = ∅) ∧
    (∀ (j : ImgJob) (t1 : List Char), j.ocr1 = some t1 → extract_macs t1 = ∅ →
      j.ocr2 = none → jobContribution j = ∅) := by
  refine ⟨?_, ?_, ?_, ?_⟩
  · have key : ∀ (jobs : List ImgJob) (acc : Finset (List Char) × Nat),
        (jobs.foldl (fun acc j => (acc.1 ∪ jobContribution j, acc.2 + 1)) acc).2 =
          acc.2 + jobs.length := by
      intro jobs
      induction jobs with
      | nil => intro acc; simp
      | cons j rest ih =>
          intro acc
          rw [List.foldl_cons, ih]
          simp
          omega
    intro jobs
    have := key jobs (∅, 0)
    rw [collectResults]
    omega
  · intro j h
    simp [jobContribution, ocr_one_image, h]
  · intro j h
    by_cases ho : j.openOk
    · simp [jobContribution, ocr_one_image, h, ho]
    · simp [jobContribution, ocr_one_image, ho]
  · intro j t1 h1 hext h2
    by_cases ho : j.openOk
    · simp [jobContribution, ocr_one_image, h1, hext, h2, ho]
    · simp [jobContribution, ocr_one_image, ho]

/-- Witness for C7 on concrete failing jobs. -/
theorem claim_C7_witness :
    (collectResults [⟨false, none, none⟩]).2 = 1 ∧
    jobContribution ⟨false, none, none⟩ = ∅ ∧
    jobContribution ⟨true, none, none⟩ = ∅ ∧
    jobContribution ⟨true, some ("no mac here".toList), none⟩ = ∅ :=
  ⟨claim_C7.1 [⟨false, none, none⟩],
   claim_C7.2.1 ⟨false, none, none⟩ rfl,
   claim_C7.2.2.1 ⟨true, none, none⟩ rfl,
   claim_C7.2.2.2 ⟨true, some ("no mac here".toList), none⟩ ("no mac here".toList)
     rfl (by decide) rfl⟩

/-! ## Claims C8 and C10: save_new frame property and load_existing -/

/-- C8: merging an empty discovered-address set returns 0 and leaves the
ledger file exactly as it was; in particular an absent file stays absent
and an existing file is not modified. -/
theorem claim_C8 : ∀ file : Option (List (List Char)), save_new [] file = (0, file) := by
  intro file
  rfl

/-- Witness for C8 at an absent ledger file. -/
theorem claim_C8_witness : save_new [] (none : Option (List (List Char))) = (0, none) :=
  claim_C8 none

/-- C10: an address is counted as already present exactly when some line of
the file, after stripping and uppercasing, equals it and validates; hence a
lowercase valid address in the file blocks appending its uppercase form
(second conjunct returns 0 and leaves the file untouched), while a
malformed line is never counted as existing (third conjunct: the new
address is appended even though the file contains its 5-group prefix). -/
theorem claim_C10 :
    (∀ (lines : List (List Char)) (m : List Char),
      m ∈ load_existing (some lines) ↔
        (∃ l ∈ lines, upperStrip l = m) ∧ validFullmatch m = true) ∧
    save_new ["AA:BB:CC:DD:EE:FF".toList] (some ["aa:bb:cc:dd:ee:ff".toList]) =
      (0, some ["aa:bb:cc:dd:ee:ff".toList]) ∧
    save_new ["AA:BB:CC:DD:EE:FF".toList] (some ["AA:BB:CC:DD:EE".toList]) =
      (1, some ["AA:BB:CC:DD:EE".toList, "AA:BB:CC:DD:EE:FF".toList]) := by
  refine ⟨?_, by decide, by decide⟩
  intro lines m
  simp [load_existing, List.mem_filter, List.mem_map]

/-- Witness for C10: the uppercase form is an existing entry of a file
holding its lowercase form. -/
theorem claim_C10_witness :
    "AA:BB:CC:DD:EE:FF".toList ∈ load_existing (some ["aa:bb:cc:dd:ee:ff".toList]) :=
  (claim_C10.1 ["aa:bb:cc:dd:ee:ff".toList] "AA:BB:CC:DD:EE:FF".toList).mpr
    ⟨⟨"aa:bb:cc:dd:ee:ff".toList, by decide, by decide⟩, by decide⟩

end Scanmac
